import Mathlib

/-!
Shallow embedding of the blueorca backend (src/openai.js together with the
database schema of src/unnamed/part_000).

The record store is modelled as append-only lists, one per SQLite table
(`otps`, `otp_sends`, `messages`, `users`, `chats`); an SQL `INSERT` appends
at the tail, `DELETE ... WHERE` filters rows out, `SELECT ... WHERE` filters,
and a `SELECT` without `ORDER BY` on these rowid tables returns rows in
insertion (rowid) order, which the list order represents.  Timestamps are
`Int` milliseconds since epoch, exactly the JavaScript `Date.now()` values.
-/

namespace BlueOrca

/-- Row of the `otps` table: `(email TEXT, code TEXT, expires_at INTEGER)`. -/
structure Otp where
  email : String
  code : String
  expires_at : Int
deriving DecidableEq, Repr

/-- Row of the `otp_sends` table: `(email TEXT, ip TEXT, ts INTEGER)`. -/
structure OtpSend where
  email : String
  ip : String
  ts : Int
deriving DecidableEq, Repr

/-- Row of the `messages` table, restricted to the columns the embedded
handlers read and write (`chat_id`, `role`, `content`); `id` and
`created_at` are only ever defaulted by SQLite and never selected. -/
structure Message where
  chat_id : Int
  role : String
  content : String
deriving DecidableEq, Repr

/-- Row of the `users` table, restricted to the columns the OTP flow touches
(`email`, `verified`); `password` is handled by the excluded login path. -/
structure User where
  email : String
  verified : Bool
deriving DecidableEq, Repr

/-- Row of the `chats` table, restricted to `id` and `user_id`
(`title`/`created_at` are never consulted by the embedded handlers). -/
structure Chat where
  id : Int
  user_id : Int
deriving DecidableEq, Repr

/-- The whole record store: one list per table, in insertion order. -/
structure DB where
  otps : List Otp
  otp_sends : List OtpSend
  messages : List Message
  users : List User
  chats : List Chat
deriving DecidableEq, Repr

/-- `const MAX_SENDS = 5`. -/
def MAX_SENDS : Nat := 5

/-- `const WINDOW_MS = 15 * 60 * 1000`. -/
def WINDOW_MS : Int := 15 * 60 * 1000

/-- `const BLOCK_MS = 15 * 60 * 1000`. -/
def BLOCK_MS : Int := 15 * 60 * 1000

/-- Code TTL used inline in the handler: `nowTs + 5 * 60 * 1000`. -/
def OTP_TTL_MS : Int := 5 * 60 * 1000

/-- Outcome of `POST /api/send-otp`: `{ok:true}`, the per-email 429 with its
`retryAfter` field, the per-IP 429, or the catch-all 500 ("Gagal kirim OTP")
reached when the Resend call throws. -/
inductive SendOtpResult where
  | ok
  | rateLimitedDest (retryAfter : Nat)
  | rateLimitedIp
  | externalSendFailure
deriving DecidableEq, Repr

/-- Embeds `SELECT ts FROM otp_sends WHERE email=? AND ts>? ORDER BY ts DESC`
with `? = email` and `? = now - WINDOW_MS`: the matching `ts` values sorted
in descending order. -/
def recentSendsDesc (db : DB) (email : String) (now : Int) : List Int :=
  List.insertionSort (· ≥ ·)
    ((db.otp_sends.filter fun a => a.email == email && now - WINDOW_MS < a.ts).map
      (fun a => a.ts))

/-- The per-email gate of `/api/send-otp` (lines 126-138): when the recent
send count reaches `MAX_SENDS` and `blockedUntil = recentSends[0].ts + BLOCK_MS`
is still in the future, answer 429 with
`retryAfter = Math.ceil((blockedUntil - nowTs)/1000)`; otherwise pass. -/
def destGate (db : DB) (email : String) (now : Int) : Option Nat :=
  if MAX_SENDS ≤ (recentSendsDesc db email now).length then
    match recentSendsDesc db email now with
    | [] => none
    | lastSendTs :: _ =>
      if now < lastSendTs + BLOCK_MS then
        some (((lastSendTs + BLOCK_MS - now).toNat + 999) / 1000)
      else none
  else none

/-- Embeds `SELECT COUNT(1) FROM otp_sends WHERE ip=? AND ts>?`. -/
def recentIpCount (db : DB) (ip : String) (now : Int) : Nat :=
  (db.otp_sends.filter fun a => a.ip == ip && now - WINDOW_MS < a.ts).length

/-- Handler of `POST /api/send-otp` (src/openai.js lines 113-179).  The
random six-digit code is an input (`genCode`), and `sendOk` tells whether the
external `resend.emails.send` call succeeds; when it throws, the catch block
returns the 500 response, with every store write already performed (nothing
is rolled back).  Returns the response together with the store after the
request. -/
def sendOtp (db : DB) (email ip : String) (now : Int) (genCode : String)
    (sendOk : Bool) : SendOtpResult × DB :=
  match destGate db email now with
  | some retryAfter => (.rateLimitedDest retryAfter, db)
  | none =>
    if MAX_SENDS * 3 ≤ recentIpCount db ip now then (.rateLimitedIp, db)
    else
      let expires := now + OTP_TTL_MS
      let db1 : DB := { db with
        otps := (db.otps.filter fun o => !(o.email == email)) ++
          [{ email := email, code := genCode, expires_at := expires }] }
      let db2 : DB := { db1 with
        otp_sends := db1.otp_sends ++ [{ email := email, ip := ip, ts := now }] }
      if sendOk then (.ok, db2) else (.externalSendFailure, db2)

/-- Outcome of `POST /api/verify-otp`: `{ok:true}` or the 400
"OTP invalid / expired". -/
inductive VerifyResult where
  | ok
  | invalidOrExpired
deriving DecidableEq, Repr

/-- Handler of `POST /api/verify-otp` (src/openai.js lines 184-202):
`SELECT * FROM otps WHERE email=? AND code=?` (exact string equality), fail
when absent or `expires_at < Date.now()`; on success
`UPDATE users SET verified=1 WHERE email=?` and `DELETE FROM otps WHERE email=?`. -/
def verifyOtp (db : DB) (email code : String) (now : Int) : VerifyResult × DB :=
  match db.otps.find? (fun o => o.email == email && o.code == code) with
  | none => (.invalidOrExpired, db)
  | some otp =>
    if otp.expires_at < now then (.invalidOrExpired, db)
    else
      (.ok, { db with
        users := db.users.map
          (fun u => if u.email == email then { u with verified := true } else u),
        otps := db.otps.filter fun o => !(o.email == email) })

/-- The model stream consumed by `streamChat`: the chunk contents
`chunk.choices[0]?.delta?.content` delivered in arrival order (`none` when
the delta carries no content), and whether the stream raises an upstream
error after delivering them (a failure mid-sequence), instead of completing
normally. -/
structure ModelStream where
  chunks : List (Option String)
  failsAfter : Bool
deriving DecidableEq, Repr

/-- The tokens `streamChat` actually writes to the response: each chunk with
truthy content (`if (token) res.write(token)` skips absent and empty
strings), in arrival order. -/
def writtenTokens (chunks : List (Option String)) : List String :=
  chunks.filterMap fun c =>
    match c with
    | none => none
    | some t => if t == "" then none else some t

/-- Left-to-right concatenation of a token list, as the handler's
`full += chunk` accumulator builds it. -/
def concatList : List String → String
  | [] => ""
  | s :: rest => s ++ concatList rest

/-- Result of the `POST /api/chat-stream/:chatId` handler: the store after
the request, the text written to the client response (through the overridden
`res.write`, which also feeds the `full` accumulator), and the `history`
rows passed to `streamChat` as the model prompt. -/
structure ChatStreamOutcome where
  db : DB
  clientText : String
  promptHistory : List Message
deriving DecidableEq, Repr

/-- Handler of `POST /api/chat-stream/:chatId` (src/openai.js lines 244-273),
behind the `auth` middleware, so it receives the authenticated `req.user`
(`caller`).  It inserts the user message, selects the chat's history, streams
the model reply while teeing every written token into `full`, and then
inserts the assistant message — but when the stream fails mid-sequence the
`await streamChat` throws into the catch block, which only ends the response:
the assistant insert is skipped. -/
def chatStream (caller : Int) (db : DB) (chatId : Int) (message : String)
    (s : ModelStream) : ChatStreamOutcome :=
  let db1 : DB := { db with
    messages := db.messages ++ [{ chat_id := chatId, role := "user", content := message }] }
  let history := db1.messages.filter fun m => m.chat_id == chatId
  let full := concatList (writtenTokens s.chunks)
  if s.failsAfter then
    { db := db1, clientText := full, promptHistory := history }
  else
    { db := { db1 with
        messages := db1.messages ++
          [{ chat_id := chatId, role := "assistant", content := full }] },
      clientText := full, promptHistory := history }

/-- Handler of `GET /api/messages/:chatId` (src/openai.js lines 285-293),
behind `auth`: `SELECT role, content FROM messages WHERE chat_id=?`. -/
def listMessages (caller : Int) (db : DB) (chatId : Int) : List Message :=
  db.messages.filter fun m => m.chat_id == chatId

/-- The empty record store (all tables freshly created). -/
def emptyDB : DB := { otps := [], otp_sends := [], messages := [], users := [], chats := [] }

/-- Skipping the falsy chunks (`if (token)`) does not change the
concatenation: the accumulated text equals the concatenation of all text
fragments the stream delivered. -/
theorem concatList_writtenTokens (cs : List (Option String)) :
    concatList (writtenTokens cs) = concatList (cs.filterMap id) := by
  induction cs with
  | nil => rfl
  | cons c rest ih =>
    cases c with
    | none => simpa [writtenTokens, List.filterMap_cons] using ih
    | some t =>
      by_cases ht : t = ""
      · subst ht
        have h1 : writtenTokens (some "" :: rest) = writtenTokens rest := by
          simp [writtenTokens]
        have h2 : (some "" :: rest).filterMap id = "" :: rest.filterMap id := by
          simp
        rw [h1, ih, h2, concatList]
        simp
      · have h1 : writtenTokens (some t :: rest) = t :: writtenTokens rest := by
          simp [writtenTokens, ht]
        have h2 : (some t :: rest).filterMap id = t :: rest.filterMap id := by
          simp
        rw [h1, h2, concatList, concatList, ih]

/-- C5: in every invocation of the chat-stream handler, the user turn is
inserted into the conversation's history before the model is invoked, and
the prompt context passed to the model is the full stored turn sequence of
that conversation in creation (insertion) order, ending with the
just-appended user turn. -/
theorem chatStream_prompt_includes_user_turn (caller : Int) (db : DB) (chatId : Int)
    (message : String) (s : ModelStream) :
    (chatStream caller db chatId message s).promptHistory =
      (db.messages.filter fun m => m.chat_id == chatId) ++
        [{ chat_id := chatId, role := "user", content := message }] := by
  unfold chatStream
  by_cases h : s.failsAfter <;> simp [h, List.filter_append]

/-- C2: when the model stream completes normally after delivering fragments
f1..fn (n ≥ 0), the handler persists exactly one assistant turn whose
content is the concatenation f1++...++fn in arrival order (after the
already-persisted user turn), and the text written to the client equals
that same concatenation. -/
theorem chatStream_success_persists_concat (caller : Int) (db : DB) (chatId : Int)
    (message : String) (chunks : List (Option String)) :
    ((chatStream caller db chatId message ⟨chunks, false⟩).db.messages =
        db.messages ++
          [{ chat_id := chatId, role := "user", content := message },
           { chat_id := chatId, role := "assistant",
             content := concatList (chunks.filterMap id) }]) ∧
      (chatStream caller db chatId message ⟨chunks, false⟩).clientText =
        concatList (chunks.filterMap id) := by
  unfold chatStream
  simp [concatList_writtenTokens]

/-- C1 counterexample: with an empty store, a user message "hi" and a model
stream that fails after emitting the fragments "f1" and "f2", the handler
persists only the user turn — no assistant turn with content "f1f2" (nor any
assistant turn at all) is written to the history, because the upstream error
thrown out of `await streamChat` jumps over the assistant insert into the
catch block. -/
theorem chatStream_failure_drops_partial_output :
    ((chatStream 7 emptyDB 1 "hi" { chunks := [some "f1", some "f2"], failsAfter := true }).db.messages =
        [{ chat_id := 1, role := "user", content := "hi" }]) ∧
      ({ chat_id := 1, role := "assistant", content := "f1f2" } : Message) ∉
        (chatStream 7 emptyDB 1 "hi" { chunks := [some "f1", some "f2"], failsAfter := true }).db.messages := by
  constructor
  · rfl
  · decide

/-- C1 (amended): when the model stream fails mid-sequence after emitting
fragments f1..fk, the user's turn — written before the model call — remains
persisted and the client was sent the concatenation f1++...++fk, but no
assistant turn is persisted at all: the catch block skips the assistant
insert, so the partial output is discarded rather than saved. -/
theorem chatStream_failure_keeps_user_turn_only (caller : Int) (db : DB) (chatId : Int)
    (message : String) (chunks : List (Option String)) :
    ((chatStream caller db chatId message ⟨chunks, true⟩).db.messages =
        db.messages ++ [{ chat_id := chatId, role := "user", content := message }]) ∧
      (chatStream caller db chatId message ⟨chunks, true⟩).clientText =
        concatList (chunks.filterMap id) := by
  unfold chatStream
  simp [concatList_writtenTokens]

/-- C9: neither the chat-stream handler nor the list-messages handler checks
that the conversation's owner (`chats.user_id`) is the authenticated caller:
for a chat owned by someone other than the caller, the outcome is identical
to the owner's own call, the caller's user turn is still appended to that
conversation, and the stored turns are still returned. -/
theorem chat_endpoints_ignore_ownership (caller : Int) (db : DB) (chat : Chat)
    (message : String) (s : ModelStream)
    (hmem : chat ∈ db.chats) (hown : chat.user_id ≠ caller) :
    (chatStream caller db chat.id message s =
        chatStream chat.user_id db chat.id message s) ∧
      (({ chat_id := chat.id, role := "user", content := message } : Message) ∈
        (chatStream caller db chat.id message s).db.messages) ∧
      listMessages caller db chat.id =
        db.messages.filter (fun m => m.chat_id == chat.id) := by
  refine ⟨rfl, ?_, rfl⟩
  unfold chatStream
  by_cases h : s.failsAfter <;> simp [h]

/-- Record store holding one chat owned by user 2, used to exercise the
ownership-free chat endpoints with caller 7. -/
def foreignChatDB : DB := { emptyDB with chats := [{ id := 1, user_id := 2 }] }

/-- Length of the descending window list equals the window attempt count. -/
theorem recentSendsDesc_length (db : DB) (email : String) (now : Int) :
    (recentSendsDesc db email now).length =
      (db.otp_sends.filter fun a => a.email == email && now - WINDOW_MS < a.ts).length := by
  unfold recentSendsDesc
  rw [(List.perm_insertionSort _ _).length_eq, List.length_map]

/-- The head of the descending window list (`recentSends[0].ts`) is the
timestamp of an attempt in the window and bounds all window attempt
timestamps from above: it belongs to the most recent attempt. -/
theorem recentSendsDesc_head_max (db : DB) (email : String) (now : Int)
    (m : Int) (rest : List Int)
    (h : recentSendsDesc db email now = m :: rest) :
    (m ∈ (db.otp_sends.filter fun a => a.email == email && now - WINDOW_MS < a.ts).map
        (fun a => a.ts)) ∧
      ∀ t ∈ (db.otp_sends.filter fun a => a.email == email && now - WINDOW_MS < a.ts).map
        (fun a => a.ts), t ≤ m := by
  have hperm : List.Perm (m :: rest)
      ((db.otp_sends.filter fun a => a.email == email && now - WINDOW_MS < a.ts).map
        (fun a => a.ts)) := by
    rw [← h]
    unfold recentSendsDesc
    exact List.perm_insertionSort _ _
  have hsorted : List.Sorted (· ≥ ·) (m :: rest) := by
    rw [← h]
    unfold recentSendsDesc
    exact List.sorted_insertionSort _ _
  refine ⟨hperm.subset (List.mem_cons_self m rest), fun t ht => ?_⟩
  rcases List.mem_cons.mp (hperm.symm.subset ht) with rfl | htail
  · exact le_refl t
  · exact (List.sorted_cons.mp hsorted).1 t htail

/-- When at least `MAX_SENDS` attempts for the email lie in the trailing
window, the per-email gate computes `blockedUntil` from the most recent
attempt's timestamp `m`, finds it still in the future, and answers the 429
with `retryAfter = ceil((m + BLOCK_MS - now)/1000)`. -/
theorem destGate_of_window_count (db : DB) (email : String) (now : Int)
    (hcount : MAX_SENDS ≤
      (db.otp_sends.filter fun a => a.email == email && now - WINDOW_MS < a.ts).length) :
    ∃ m,
      (m ∈ (db.otp_sends.filter fun a => a.email == email && now - WINDOW_MS < a.ts).map
          (fun a => a.ts)) ∧
        (∀ t ∈ (db.otp_sends.filter fun a => a.email == email && now - WINDOW_MS < a.ts).map
          (fun a => a.ts), t ≤ m) ∧
        now < m + BLOCK_MS ∧
        destGate db email now = some (((m + BLOCK_MS - now).toNat + 999) / 1000) := by
  have hlen : MAX_SENDS ≤ (recentSendsDesc db email now).length := by
    rw [recentSendsDesc_length]; exact hcount
  obtain ⟨m, rest, hcons⟩ : ∃ m rest, recentSendsDesc db email now = m :: rest := by
    cases hc : recentSendsDesc db email now with
    | nil => rw [hc] at hlen; simp [MAX_SENDS] at hlen
    | cons a t => exact ⟨a, t, rfl⟩
  obtain ⟨hmem, hmax⟩ := recentSendsDesc_head_max db email now m rest hcons
  have hwin : now - WINDOW_MS < m := by
    obtain ⟨a, hafilter, hats⟩ := List.mem_map.mp hmem
    have hcond := (List.mem_filter.mp hafilter).2
    simp only [Bool.and_eq_true, beq_iff_eq, decide_eq_true_eq] at hcond
    omega
  have hblock : now < m + BLOCK_MS := by
    simp only [WINDOW_MS] at hwin
    simp only [BLOCK_MS]
    omega
  refine ⟨m, hmem, hmax, hblock, ?_⟩
  unfold destGate
  rw [hcons] at hlen ⊢
  rw [if_pos hlen]
  simp [hblock]

/-- Membership in the window timestamp list, phrased at the attempt level. -/
theorem windowTs_mem_iff (db : DB) (email : String) (now : Int) (m : Int) :
    (m ∈ (db.otp_sends.filter fun a => a.email == email && now - WINDOW_MS < a.ts).map
        (fun a => a.ts)) ↔
      ∃ a ∈ db.otp_sends, a.email = email ∧ now - WINDOW_MS < a.ts ∧ a.ts = m := by
  simp only [List.mem_map, List.mem_filter, Bool.and_eq_true, beq_iff_eq,
    decide_eq_true_eq]
  constructor
  · rintro ⟨a, ⟨hmem, he, hw⟩, hts⟩
    exact ⟨a, hmem, he, hw, hts⟩
  · rintro ⟨a, hmem, he, hw, hts⟩
    exact ⟨a, ⟨hmem, he, hw⟩, hts⟩

/-- C3: when 5 send attempts for a destination already lie inside the
trailing 15-minute window (all of them in the past), the next
`/api/send-otp` call for that destination is answered 429 with
`retryAfter = ceil((mostRecentAttempt.ts + 15min - now)/1000)`, which is
positive and at most 900. -/
theorem sendOtp_sixth_call_rate_limited (db : DB) (email ip : String) (now : Int)
    (genCode : String) (sendOk : Bool)
    (hcount : MAX_SENDS ≤
      (db.otp_sends.filter fun a => a.email == email && now - WINDOW_MS < a.ts).length)
    (hpast : ∀ a ∈ db.otp_sends, a.email = email → a.ts ≤ now) :
    ∃ m,
      (∃ a ∈ db.otp_sends, a.email = email ∧ now - WINDOW_MS < a.ts ∧ a.ts = m) ∧
        (∀ a ∈ db.otp_sends, a.email = email → now - WINDOW_MS < a.ts → a.ts ≤ m) ∧
        (sendOtp db email ip now genCode sendOk).1 =
          .rateLimitedDest (((m + BLOCK_MS - now).toNat + 999) / 1000) ∧
        0 < ((m + BLOCK_MS - now).toNat + 999) / 1000 ∧
        ((m + BLOCK_MS - now).toNat + 999) / 1000 ≤ 900 := by
  obtain ⟨m, hmem, hmax, hblock, hgate⟩ := destGate_of_window_count db email now hcount
  have hmem' := (windowTs_mem_iff db email now m).mp hmem
  have hmax' : ∀ a ∈ db.otp_sends, a.email = email → now - WINDOW_MS < a.ts → a.ts ≤ m := by
    intro a hmema he hw
    exact hmax a.ts ((windowTs_mem_iff db email now a.ts).mpr ⟨a, hmema, he, hw, rfl⟩)
  have hm_now : m ≤ now := by
    obtain ⟨a, hmema, he, _, hts⟩ := hmem'
    rw [← hts]
    exact hpast a hmema he
  refine ⟨m, hmem', hmax', ?_, ?_, ?_⟩
  · unfold sendOtp
    rw [hgate]
  · simp only [BLOCK_MS] at hblock ⊢
    omega
  · simp only [BLOCK_MS] at hblock ⊢
    omega

/-- Record store with five send attempts for destination "a@x.com" inside
the window ending at time 1000000. -/
def throttledDB : DB := { emptyDB with
  otp_sends :=
    [{ email := "a@x.com", ip := "1.2.3.4", ts := 200000 },
     { email := "a@x.com", ip := "1.2.3.4", ts := 300000 },
     { email := "a@x.com", ip := "1.2.3.4", ts := 400000 },
     { email := "a@x.com", ip := "1.2.3.4", ts := 500000 },
     { email := "a@x.com", ip := "1.2.3.4", ts := 600000 }] }

/-- Witness for C3 at a store with five window attempts and now = 1000000. -/
theorem sendOtp_sixth_call_rate_limited_witness :
    ∃ m,
      (∃ a ∈ throttledDB.otp_sends,
          a.email = "a@x.com" ∧ (1000000 : Int) - WINDOW_MS < a.ts ∧ a.ts = m) ∧
        (∀ a ∈ throttledDB.otp_sends,
          a.email = "a@x.com" → (1000000 : Int) - WINDOW_MS < a.ts → a.ts ≤ m) ∧
        (sendOtp throttledDB "a@x.com" "1.2.3.4" 1000000 "123456" true).1 =
          .rateLimitedDest (((m + BLOCK_MS - 1000000).toNat + 999) / 1000) ∧
        0 < ((m + BLOCK_MS - 1000000).toNat + 999) / 1000 ∧
        ((m + BLOCK_MS - 1000000).toNat + 999) / 1000 ≤ 900 :=
  sendOtp_sixth_call_rate_limited throttledDB "a@x.com" "1.2.3.4" 1000000 "123456" true
    (by decide) (by decide)

/-- C6: with the window attempt count at or above `MAX_SENDS`, the
per-destination gate rejects the request exactly when
`mostRecentAttempt.ts + BLOCK_MS` is still in the future (the block is
anchored to the last attempt's timestamp, not the window boundary); in the
contrary case the request would proceed past the per-destination gate
despite the count. -/
theorem sendOtp_block_anchored_to_last_attempt (db : DB) (email ip : String)
    (now : Int) (genCode : String) (sendOk : Bool)
    (hcount : MAX_SENDS ≤
      (db.otp_sends.filter fun a => a.email == email && now - WINDOW_MS < a.ts).length) :
    ∃ m,
      (∃ a ∈ db.otp_sends, a.email = email ∧ now - WINDOW_MS < a.ts ∧ a.ts = m) ∧
        (∀ a ∈ db.otp_sends, a.email = email → now - WINDOW_MS < a.ts → a.ts ≤ m) ∧
        ((∃ r, (sendOtp db email ip now genCode sendOk).1 = .rateLimitedDest r) ↔
          now < m + BLOCK_MS) := by
  obtain ⟨m, hmem, hmax, hblock, hgate⟩ := destGate_of_window_count db email now hcount
  have hmax' : ∀ a ∈ db.otp_sends, a.email = email → now - WINDOW_MS < a.ts → a.ts ≤ m := by
    intro a hmema he hw
    exact hmax a.ts ((windowTs_mem_iff db email now a.ts).mpr ⟨a, hmema, he, hw, rfl⟩)
  refine ⟨m, (windowTs_mem_iff db email now m).mp hmem, hmax', ?_⟩
  apply iff_of_true
  · refine ⟨((m + BLOCK_MS - now).toNat + 999) / 1000, ?_⟩
    unfold sendOtp
    rw [hgate]
  · exact hblock

/-- Witness for C6 at the same throttled store. -/
theorem sendOtp_block_anchored_to_last_attempt_witness :
    ∃ m,
      (∃ a ∈ throttledDB.otp_sends,
          a.email = "a@x.com" ∧ (1000000 : Int) - WINDOW_MS < a.ts ∧ a.ts = m) ∧
        (∀ a ∈ throttledDB.otp_sends,
          a.email = "a@x.com" → (1000000 : Int) - WINDOW_MS < a.ts → a.ts ≤ m) ∧
        ((∃ r, (sendOtp throttledDB "a@x.com" "9.9.9.9" 1000000 "654321" true).1 =
            .rateLimitedDest r) ↔ (1000000 : Int) < m + BLOCK_MS) :=
  sendOtp_block_anchored_to_last_attempt throttledDB "a@x.com" "9.9.9.9" 1000000 "654321"
    true (by decide)

/-- A verify call fails whenever no stored row matches the email and code. -/
theorem verifyOtp_no_match (db : DB) (email code : String) (now : Int)
    (h : ∀ o ∈ db.otps, ¬(o.email = email ∧ o.code = code)) :
    (verifyOtp db email code now).1 = .invalidOrExpired := by
  have hnone : db.otps.find? (fun o => o.email == email && o.code == code) = none := by
    apply List.find?_eq_none.mpr
    intro o hmem
    have ho := h o hmem
    simp only [not_and] at ho
    by_cases he : o.email = email
    · simp [he, ho he]
    · simp [he]
  unfold verifyOtp
  rw [hnone]

/-- C4: `verify-otp` fails with "OTP invalid / expired" exactly when no
stored row matches (email, code) by exact string equality or the matching
row has `expires_at < now`; on success it sets the user's verified flag and
deletes the destination's rows, so a second call with the same code fails
with the same error, and once `expires_at` has passed every call fails even
if the code was never consumed. -/
theorem verifyOtp_single_use_and_expiry (db : DB) (email code : String) (now : Int)
    (huniq : ∀ o1 ∈ db.otps, ∀ o2 ∈ db.otps, o1.email = email → o2.email = email → o1 = o2) :
    ((verifyOtp db email code now).1 = .invalidOrExpired ↔
        (∀ o ∈ db.otps, ¬(o.email = email ∧ o.code = code)) ∨
          ∃ o ∈ db.otps, o.email = email ∧ o.code = code ∧ o.expires_at < now) ∧
      ((verifyOtp db email code now).1 = .ok →
        (∀ u ∈ (verifyOtp db email code now).2.users, u.email = email → u.verified = true) ∧
          (∀ o ∈ (verifyOtp db email code now).2.otps, o.email ≠ email) ∧
          ∀ now2, (verifyOtp (verifyOtp db email code now).2 email code now2).1 =
            .invalidOrExpired) := by
  cases hfind : db.otps.find? (fun o => o.email == email && o.code == code) with
  | none =>
    have hres : (verifyOtp db email code now).1 = .invalidOrExpired := by
      unfold verifyOtp; rw [hfind]
    refine ⟨?_, ?_⟩
    · rw [hres]
      simp only [true_iff]
      left
      intro o hmem hcontra
      have := List.find?_eq_none.mp hfind o hmem
      simp [hcontra.1, hcontra.2] at this
    · intro hok
      rw [hres] at hok
      simp at hok
  | some otp =>
    have hp := List.find?_some hfind
    have hmem := List.mem_of_find?_eq_some hfind
    simp only [Bool.and_eq_true, beq_iff_eq] at hp
    obtain ⟨hpe, hpc⟩ := hp
    by_cases hexp : otp.expires_at < now
    · have hres : (verifyOtp db email code now).1 = .invalidOrExpired := by
        simp [verifyOtp, hfind, hexp]
      refine ⟨?_, ?_⟩
      · rw [hres]
        simp only [true_iff]
        right
        exact ⟨otp, hmem, hpe, hpc, hexp⟩
      · intro hok
        rw [hres] at hok
        simp at hok
    · have hres1 : (verifyOtp db email code now).1 = .ok := by
        simp [verifyOtp, hfind, hexp]
      have hres2 : (verifyOtp db email code now).2 = { db with
          users := db.users.map
            (fun u => if u.email == email then { u with verified := true } else u),
          otps := db.otps.filter fun o => !(o.email == email) } := by
        simp [verifyOtp, hfind, hexp]
      refine ⟨?_, fun _ => ⟨?_, ?_, ?_⟩⟩
      · rw [hres1]
        apply iff_of_false
        · simp
        · rintro (hnone | ⟨o, hmemo, hoe, hoc, hoexp⟩)
          · exact hnone otp hmem ⟨hpe, hpc⟩
          · have : o = otp := huniq o hmemo otp hmem hoe hpe
            rw [this] at hoexp
            exact hexp hoexp
      · rw [hres2]
        intro u hu hue
        simp only [List.mem_map] at hu
        obtain ⟨v, _, rfl⟩ := hu
        by_cases hv : (v.email == email) = true
        · rw [if_pos hv]
        · rw [if_neg hv] at hue
          exact absurd (by simpa using hue) hv
      · rw [hres2]
        intro o hmemo
        have := (List.mem_filter.mp hmemo).2
        simpa using this
      · intro now2
        rw [hres2]
        apply verifyOtp_no_match
        intro o hmemo hcontra
        have := (List.mem_filter.mp hmemo).2
        simp [hcontra.1] at this

/-- Record store with one unexpired verification request for "a@x.com" and
the matching unverified user. -/
def pendingOtpDB : DB := { emptyDB with
  otps := [{ email := "a@x.com", code := "123456", expires_at := 500000 }],
  users := [{ email := "a@x.com", verified := false }] }

/-- Witness for C4 at a store holding one live code, verified at time 400000. -/
theorem verifyOtp_single_use_and_expiry_witness :
    ((verifyOtp pendingOtpDB "a@x.com" "123456" 400000).1 = .invalidOrExpired ↔
        (∀ o ∈ pendingOtpDB.otps, ¬(o.email = "a@x.com" ∧ o.code = "123456")) ∨
          ∃ o ∈ pendingOtpDB.otps,
            o.email = "a@x.com" ∧ o.code = "123456" ∧ o.expires_at < 400000) ∧
      ((verifyOtp pendingOtpDB "a@x.com" "123456" 400000).1 = .ok →
        (∀ u ∈ (verifyOtp pendingOtpDB "a@x.com" "123456" 400000).2.users,
            u.email = "a@x.com" → u.verified = true) ∧
          (∀ o ∈ (verifyOtp pendingOtpDB "a@x.com" "123456" 400000).2.otps,
            o.email ≠ "a@x.com") ∧
          ∀ now2,
            (verifyOtp (verifyOtp pendingOtpDB "a@x.com" "123456" 400000).2
              "a@x.com" "123456" now2).1 = .invalidOrExpired) :=
  verifyOtp_single_use_and_expiry pendingOtpDB "a@x.com" "123456" 400000 (by decide)

/-- When both rate-limit gates pass, `/api/send-otp` replaces the
destination's rows, records the attempt, and answers by the send outcome. -/
theorem sendOtp_pass_state (db : DB) (email ip : String) (now : Int) (genCode : String)
    (sendOk : Bool)
    (hdest : destGate db email now = none)
    (hip : recentIpCount db ip now < MAX_SENDS * 3) :
    sendOtp db email ip now genCode sendOk =
      ((if sendOk then .ok else .externalSendFailure),
        { db with
          otps := (db.otps.filter fun o => !(o.email == email)) ++
            [{ email := email, code := genCode, expires_at := now + OTP_TTL_MS }],
          otp_sends := db.otp_sends ++ [{ email := email, ip := ip, ts := now }] }) := by
  unfold sendOtp
  rw [hdest, if_neg (by omega : ¬ MAX_SENDS * 3 ≤ recentIpCount db ip now)]
  by_cases h : sendOk <;> simp [h]

/-- C7: a successful `/api/send-otp` leaves exactly one stored verification
request for the destination — the freshly generated one — because the
handler deletes every prior row for that email before inserting; hence a
previously issued code (different from the new one) no longer verifies, at
any time. -/
theorem sendOtp_replaces_request (db : DB) (email ip : String) (now : Int)
    (genCode : String) (sendOk : Bool)
    (hok : (sendOtp db email ip now genCode sendOk).1 = .ok) :
    ((sendOtp db email ip now genCode sendOk).2.otps.filter (fun o => o.email == email) =
        [{ email := email, code := genCode, expires_at := now + OTP_TTL_MS }]) ∧
      ∀ oldCode, oldCode ≠ genCode → ∀ now2,
        (verifyOtp (sendOtp db email ip now genCode sendOk).2 email oldCode now2).1 =
          .invalidOrExpired := by
  cases hdest : destGate db email now with
  | some r =>
    unfold sendOtp at hok
    rw [hdest] at hok
    simp at hok
  | none =>
    by_cases hip : MAX_SENDS * 3 ≤ recentIpCount db ip now
    · unfold sendOtp at hok
      rw [hdest, if_pos hip] at hok
      simp at hok
    · cases hs : sendOk with
      | false =>
        have hpass := sendOtp_pass_state db email ip now genCode false hdest (by omega)
        rw [hs, hpass] at hok
        simp at hok
      | true =>
        have hpass := sendOtp_pass_state db email ip now genCode true hdest (by omega)
        rw [hpass]
        constructor
        · simp only [List.filter_append, List.filter_filter]
          have h1 : ∀ o : Otp, ((o.email == email) && !(o.email == email)) = false := by
            intro o
            cases h : o.email == email <;> simp [h]
          have h2 : ∀ o : Otp, (!(o.email == email) && (o.email == email)) = false := by
            intro o
            cases h : o.email == email <;> simp [h]
          simp [h1, h2]
        · intro oldCode hne now2
          apply verifyOtp_no_match
          intro o hmemo hcontra
          rcases List.mem_append.mp hmemo with hpre | hnew
          · have := (List.mem_filter.mp hpre).2
            simp [hcontra.1] at this
          · simp only [List.mem_singleton] at hnew
            rw [hnew] at hcontra
            exact hne hcontra.2.symm

/-- Witness for C7: a successful send into the pending-code store. -/
theorem sendOtp_replaces_request_witness :
    ((sendOtp pendingOtpDB "a@x.com" "1.2.3.4" 1000 "777777" true).2.otps.filter
        (fun o => o.email == "a@x.com") =
        [{ email := "a@x.com", code := "777777", expires_at := 1000 + OTP_TTL_MS }]) ∧
      ∀ oldCode, oldCode ≠ "777777" → ∀ now2,
        (verifyOtp (sendOtp pendingOtpDB "a@x.com" "1.2.3.4" 1000 "777777" true).2
          "a@x.com" oldCode now2).1 = .invalidOrExpired :=
  sendOtp_replaces_request pendingOtpDB "a@x.com" "1.2.3.4" 1000 "777777" true (by decide)

/-- C8: when the request passes both rate-limit gates and the external send
capability then fails, the send attempt has nonetheless been recorded — the
rate-limit cost is charged — and the operation fails with the external-send
failure response instead of succeeding or swallowing the error. -/
theorem sendOtp_failure_still_charges (db : DB) (email ip : String) (now : Int)
    (genCode : String)
    (hdest : destGate db email now = none)
    (hip : recentIpCount db ip now < MAX_SENDS * 3) :
    ((sendOtp db email ip now genCode false).1 = .externalSendFailure) ∧
      (sendOtp db email ip now genCode false).2.otp_sends =
        db.otp_sends ++ [{ email := email, ip := ip, ts := now }] := by
  rw [sendOtp_pass_state db email ip now genCode false hdest hip]
  exact ⟨rfl, rfl⟩

/-- Witness for C8 on the empty store. -/
theorem sendOtp_failure_still_charges_witness :
    ((sendOtp emptyDB "a@x.com" "1.2.3.4" 1000 "123456" false).1 =
        .externalSendFailure) ∧
      (sendOtp emptyDB "a@x.com" "1.2.3.4" 1000 "123456" false).2.otp_sends =
        emptyDB.otp_sends ++ [{ email := "a@x.com", ip := "1.2.3.4", ts := 1000 }] :=
  sendOtp_failure_still_charges emptyDB "a@x.com" "1.2.3.4" 1000 "123456"
    (by decide) (by decide)

/-- C10: a provider failure does not roll the store back: the destination's
previous request is already deleted, the newly generated (never delivered)
code is the destination's only stored request, and it verifies successfully
at any time not past its expiry. -/
theorem sendOtp_failure_leaves_live_code (db : DB) (email ip : String) (now : Int)
    (genCode : String)
    (hdest : destGate db email now = none)
    (hip : recentIpCount db ip now < MAX_SENDS * 3) :
    ((sendOtp db email ip now genCode false).1 = .externalSendFailure) ∧
      ((sendOtp db email ip now genCode false).2.otps.filter
          (fun o => o.email == email) =
        [{ email := email, code := genCode, expires_at := now + OTP_TTL_MS }]) ∧
      ∀ now2, ¬(now + OTP_TTL_MS < now2) →
        (verifyOtp (sendOtp db email ip now genCode false).2 email genCode now2).1 =
          .ok := by
  rw [sendOtp_pass_state db email ip now genCode false hdest hip]
  refine ⟨rfl, ?_, ?_⟩
  · simp only [List.filter_append, List.filter_filter]
    have h2 : ∀ o : Otp, (!(o.email == email) && (o.email == email)) = false := by
      intro o
      cases h : o.email == email <;> simp [h]
    have h1 : ∀ o : Otp, ((o.email == email) && !(o.email == email)) = false := by
      intro o
      cases h : o.email == email <;> simp [h]
    simp [h1, h2]
  · intro now2 hlive
    have hfind : List.find? (fun o : Otp => o.email == email && o.code == genCode)
        ((db.otps.filter fun o => !(o.email == email)) ++
          ([{ email := email, code := genCode, expires_at := now + OTP_TTL_MS }] : List Otp)) =
        some { email := email, code := genCode, expires_at := now + OTP_TTL_MS } := by
      rw [List.find?_append]
      have hpre : List.find? (fun o : Otp => o.email == email && o.code == genCode)
          (db.otps.filter fun o => !(o.email == email)) = none := by
        apply List.find?_eq_none.mpr
        intro o hmemo
        have := (List.mem_filter.mp hmemo).2
        cases h : o.email == email
        · simp [h]
        · rw [h] at this
          simp at this
      rw [hpre]
      simp
    simp [verifyOtp, hfind, hlive]

/-- Witness for C10 on the pending-code store: the failed send replaces the
old code and leaves its own code live. -/
theorem sendOtp_failure_leaves_live_code_witness :
    ((sendOtp pendingOtpDB "a@x.com" "1.2.3.4" 1000 "777777" false).1 =
        .externalSendFailure) ∧
      ((sendOtp pendingOtpDB "a@x.com" "1.2.3.4" 1000 "777777" false).2.otps.filter
          (fun o => o.email == "a@x.com") =
        [{ email := "a@x.com", code := "777777", expires_at := 1000 + OTP_TTL_MS }]) ∧
      ∀ now2, ¬((1000 : Int) + OTP_TTL_MS < now2) →
        (verifyOtp (sendOtp pendingOtpDB "a@x.com" "1.2.3.4" 1000 "777777" false).2
          "a@x.com" "777777" now2).1 = .ok :=
  sendOtp_failure_leaves_live_code pendingOtpDB "a@x.com" "1.2.3.4" 1000 "777777"
    (by decide) (by decide)

/-- Witness for C9 at caller 7 and a chat owned by user 2. -/
theorem chat_endpoints_ignore_ownership_witness :
    (chatStream 7 foreignChatDB 1 "hi" { chunks := [some "x"], failsAfter := false } =
        chatStream 2 foreignChatDB 1 "hi" { chunks := [some "x"], failsAfter := false }) ∧
      (({ chat_id := 1, role := "user", content := "hi" } : Message) ∈
        (chatStream 7 foreignChatDB 1 "hi" { chunks := [some "x"], failsAfter := false }).db.messages) ∧
      listMessages 7 foreignChatDB 1 =
        foreignChatDB.messages.filter (fun m => m.chat_id == 1) :=
  chat_endpoints_ignore_ownership 7 foreignChatDB { id := 1, user_id := 2 } "hi"
    { chunks := [some "x"], failsAfter := false } (by decide) (by decide)

end BlueOrca
